import Mathlib

/-!
Shallow embedding of the persistence / schema-migration subsystem of the
AngularPWASqlite repository (`src/app/services/migrations.ts` and
`src/app/services/sqlite.service.ts`), together with theorems settling the
specification claims about it.

Modelling conventions:
* A sql.js database instance is modelled by `DB`: its `PRAGMA user_version`
  counter plus an abstract relational payload (`tables`).  The serialized
  byte image of a database (`db.export()` / `new SQL.Database(bytes)`) is
  modelled opaquely by the database value it denotes (`Image := DB`);
  a real serialized image is never a zero-length byte array, so the
  `byteLength > 0` check of the OPFS read path is subsumed by modelling
  "file missing / unreadable / empty" uniformly as absence (`none`).
* A migration's `up` action runs arbitrary SQL and may throw; it is
  modelled as `DB → Except String DB` (the `String` is the thrown error
  message).  `BEGIN TRANSACTION` / `COMMIT` / `ROLLBACK` give the action
  all-or-nothing semantics, which the `Except` result captures directly:
  a failing action leaves the database exactly as it was at `BEGIN`.
* Asynchronous browser storage (OPFS, IndexedDB, localStorage) is modelled
  by an explicit environment record `Env` threaded through the operations.
-/

namespace AngularPWASqlite

/-- A sql.js database instance: the `PRAGMA user_version` counter plus an
abstract relational payload (table name together with its column names). -/
structure DB where
  version : Nat
  tables : List (String × List String)
deriving Repr, DecidableEq

/-- The serialized byte image of a database, modelled opaquely by the
database value it denotes. -/
abbrev Image := DB

/-- `db.export()` — serialize the live instance to a byte image. -/
def DB.export (db : DB) : Image := db

/-- `new SQL.Database(savedData?)` — construct an instance from a saved
image, or a fresh empty database (version 0, no tables) when absent. -/
def newDatabase : Option Image → DB
  | some img => img
  | none => { version := 0, tables := [] }

/-- `migrations.ts` — one entry of the migration registry: a version, a
human-readable description, and the forward action `up` (arbitrary SQL,
modelled as a function that may fail with a thrown message). -/
structure Migration where
  version : Nat
  description : String
  up : DB → Except String DB

/-- `getDbVersion` — reads `PRAGMA user_version`. -/
def getDbVersion (db : DB) : Nat := db.version

/-- One element of `MigrationResult.applied`
(`Pick<Migration, 'version' | 'description'>`). -/
structure AppliedMigration where
  version : Nat
  description : String
deriving Repr, DecidableEq

/-- `{ version: migration.version, description: migration.description }`. -/
def appliedEntry (m : Migration) : AppliedMigration :=
  { version := m.version, description := m.description }

/-- `MigrationResult` of `migrations.ts`. -/
structure MigrationResult where
  fromVersion : Nat
  toVersion : Nat
  applied : List AppliedMigration
deriving Repr, DecidableEq

/-- The error thrown by `runMigrations`: in the source it is
`new Error("Migration v" + version + " (" + description + ") failed: " + cause)`;
we keep the three parts structured and render the message below. -/
structure MigrationError where
  version : Nat
  description : String
  cause : String
deriving Repr, DecidableEq

/-- The `message` of the `Error` thrown by `runMigrations`. -/
def MigrationError.message (e : MigrationError) : String :=
  "Migration v" ++ toString e.version ++ " (" ++ e.description ++ ") failed: " ++ e.cause

/-- Comparison used by `.sort((a, b) => a.version - b.version)`. -/
def migrationLE (a b : Migration) : Prop := a.version ≤ b.version

instance : DecidableRel migrationLE :=
  fun a b => inferInstanceAs (Decidable (a.version ≤ b.version))

instance : IsTotal Migration migrationLE := ⟨fun a b => Nat.le_total a.version b.version⟩

instance : IsTrans Migration migrationLE := ⟨fun _ _ _ h1 h2 => Nat.le_trans h1 h2⟩

/-- `MIGRATIONS.filter((m) => m.version > fromVersion).sort((a, b) => a.version - b.version)`
— the pending migrations, in ascending version order (a stable sort, as the
JavaScript engine's `Array.prototype.sort` is). -/
def pendingMigrations (registry : List Migration) (fromVersion : Nat) : List Migration :=
  List.insertionSort migrationLE
    (registry.filter (fun m => decide (fromVersion < m.version)))

/-- The `for (const migration of pending)` loop of `runMigrations`.
Per iteration: `BEGIN TRANSACTION`; run `migration.up`; on success set
`PRAGMA user_version = migration.version`, `COMMIT`, and record the entry in
`applied`; on any failure `ROLLBACK` (so the instance is exactly as at
`BEGIN`) and throw a `MigrationError`, attempting no further migration.
The mutated instance is returned alongside the outcome, mirroring the
in-place mutation of the sql.js instance. -/
def runMigrationsLoop :
    List Migration → DB → List AppliedMigration →
    DB × Except MigrationError (List AppliedMigration)
  | [], db, applied => (db, .ok applied)
  | m :: rest, db, applied =>
    match m.up db with
    | .ok db1 =>
      runMigrationsLoop rest { db1 with version := m.version }
        (applied ++ [appliedEntry m])
    | .error cause =>
      (db, .error { version := m.version, description := m.description, cause := cause })

/-- `runMigrations` of `migrations.ts`, generalized over the registry (the
source closes over the constant `MIGRATIONS`): read the current version,
select and sort the pending migrations, run the loop, and return the
`MigrationResult` (or propagate the thrown `MigrationError`).  The mutated
instance is returned alongside, mirroring in-place mutation. -/
def runMigrations (registry : List Migration) (db : DB) :
    DB × Except MigrationError MigrationResult :=
  let fromVersion := getDbVersion db
  let pending := pendingMigrations registry fromVersion
  match runMigrationsLoop pending db [] with
  | (db1, .ok applied) =>
    (db1, .ok { fromVersion := fromVersion, toVersion := getDbVersion db1, applied := applied })
  | (db1, .error e) => (db1, .error e)

/-- Migration v1 `up`: `CREATE TABLE IF NOT EXISTS todos (...)` — creates the
`todos` table when absent, succeeds silently when present. -/
def migration1Up (db : DB) : Except String DB :=
  if db.tables.any (fun t => t.1 == "todos") then .ok db
  else .ok { db with
    tables := db.tables ++ [("todos", ["id", "title", "done", "created_at"])] }

/-- Migration v2 `up`: `ALTER TABLE todos ADD COLUMN priority INTEGER DEFAULT 0`
— fails when the table is missing or the column already exists, as SQLite's
`ALTER TABLE` does. -/
def migration2Up (db : DB) : Except String DB :=
  match db.tables.find? (fun t => t.1 == "todos") with
  | none => .error "no such table: todos"
  | some t =>
    if t.2.contains "priority" then .error "duplicate column name: priority"
    else .ok { db with
      tables := db.tables.map
        (fun u => if u.1 == "todos" then (u.1, u.2 ++ ["priority"]) else u) }

/-- The shipped `MIGRATIONS` registry. -/
def MIGRATIONS : List Migration :=
  [ { version := 1, description := "Create todos table", up := migration1Up },
    { version := 2, description := "Add priority column to todos", up := migration2Up } ]

/-! ## `sqlite.service.ts` — state, environment, storage gateway -/

/-- `StorageBackend` — the preference enumeration. -/
inductive StorageBackend
  | auto | opfs | indexeddb | memory
deriving Repr, DecidableEq

/-- `ActiveBackend` — the concrete media. -/
inductive ActiveBackend
  | opfs | indexeddb | memory
deriving Repr, DecidableEq

/-- The browser environment the service runs against: capability probes,
the stored images of the two durable media, whether writes to them succeed,
and the `localStorage` entry holding the persisted backend preference.
A `none` stored image covers every condition the code treats as absence
(file missing, read error, zero-length file, absent IndexedDB key). -/
structure Env where
  opfsAvailable : Bool
  indexedDBDefined : Bool
  opfsFile : Option Image
  idbData : Option Image
  opfsWriteOk : Bool
  idbWriteOk : Bool
  savedPref : Option StorageBackend
deriving Repr, DecidableEq

/-- `idbGet(DB_NAME)` as observed by `loadFromSpecific`: rejects (hence
reads as absent) when `indexedDB` is undefined, otherwise yields the stored
value or absence. -/
def Env.idbGet (env : Env) : Option Image :=
  if env.indexedDBDefined then env.idbData else none

/-- Whether `idbSet(DB_NAME, data)` resolves: it rejects when `indexedDB`
is undefined or the write fails. -/
def Env.idbSetOk (env : Env) : Bool :=
  env.indexedDBDefined && env.idbWriteOk

/-- The observable state of `SqliteService`: the live instance (`db`,
`null` outside the Ready state) and the reactive signals. -/
structure SqliteState where
  db : Option DB
  ready : Bool
  error : Option String
  dbVersion : Nat
  preferredBackend : StorageBackend
  activeBackend : ActiveBackend
  availableBackends : List ActiveBackend
  migrationResult : Option MigrationResult
deriving Repr, DecidableEq

/-- The signals' initial values (`signal(false)`, `signal(null)`,
`signal(0)`, `signal('auto')`, `signal('memory')`, `signal(['memory'])`,
`signal(null)`), with no live instance. -/
def initialState : SqliteState :=
  { db := none, ready := false, error := none, dbVersion := 0,
    preferredBackend := .auto, activeBackend := .memory,
    availableBackends := [.memory], migrationResult := none }

/-- The message of the error thrown by `ensureReady`. -/
def notReadyMessage : String := "Database not initialized. Call initialize() first."

/-- `ensureReady()` — throws when there is no live instance. -/
def ensureReady (st : SqliteState) : Except String Unit :=
  match st.db with
  | none => .error notReadyMessage
  | some _ => .ok ()

/-- `resolveBackend()` — returns the current preference. -/
def resolveBackend (st : SqliteState) : StorageBackend := st.preferredBackend

/-- `loadFromSpecific(backend)` — best-effort read of one medium.  OPFS:
absent unless the capability probe passes and a (non-empty) file exists;
on a hit the medium is marked active.  IndexedDB: a rejected or empty read
is absence; any truthy value is a hit and marks the medium active.
Memory: always marks the medium active and yields nothing. -/
def loadFromSpecific (env : Env) (st : SqliteState) :
    ActiveBackend → SqliteState × Option Image
  | .opfs =>
    if env.opfsAvailable then
      match env.opfsFile with
      | some img => ({ st with activeBackend := .opfs }, some img)
      | none => (st, none)
    else (st, none)
  | .indexeddb =>
    match env.idbGet with
    | some img => ({ st with activeBackend := .indexeddb }, some img)
    | none => (st, none)
  | .memory => ({ st with activeBackend := .memory }, none)

/-- `loadFromStorage()` — resolve the preference; a concrete preference
reads only that medium; `auto` tries OPFS then IndexedDB, and on total
absence marks `memory` active and yields nothing. -/
def loadFromStorage (env : Env) (st : SqliteState) : SqliteState × Option Image :=
  match resolveBackend st with
  | .opfs => loadFromSpecific env st .opfs
  | .indexeddb => loadFromSpecific env st .indexeddb
  | .memory => loadFromSpecific env st .memory
  | .auto =>
    match loadFromSpecific env st .opfs with
    | (st1, some img) => (st1, some img)
    | (st1, none) =>
      match loadFromSpecific env st1 .indexeddb with
      | (st2, some img) => (st2, some img)
      | (st2, none) => ({ st2 with activeBackend := .memory }, none)

/-- `saveToSpecific(backend, data)` — best-effort write of one medium;
`true` marks it active, `false` reports the soft failure.  A successful
write replaces the medium's stored image; a failed write leaves the
environment untouched. -/
def saveToSpecific (env : Env) (st : SqliteState) (data : Image) :
    ActiveBackend → SqliteState × Env × Bool
  | .opfs =>
    if env.opfsAvailable && env.opfsWriteOk then
      ({ st with activeBackend := .opfs }, { env with opfsFile := some data }, true)
    else (st, env, false)
  | .indexeddb =>
    if env.idbSetOk then
      ({ st with activeBackend := .indexeddb }, { env with idbData := some data }, true)
    else (st, env, false)
  | .memory => ({ st with activeBackend := .memory }, env, true)

/-- `saveToStorage(data)` — resolve the preference; a concrete preference
writes only that medium (its success flag is discarded); `auto` tries OPFS
then IndexedDB, stopping at the first success, and marks `memory` active
when every candidate fails. -/
def saveToStorage (env : Env) (st : SqliteState) (data : Image) : SqliteState × Env :=
  match resolveBackend st with
  | .opfs => let (st1, env1, _) := saveToSpecific env st data .opfs
             (st1, env1)
  | .indexeddb => let (st1, env1, _) := saveToSpecific env st data .indexeddb
                  (st1, env1)
  | .memory => let (st1, env1, _) := saveToSpecific env st data .memory
               (st1, env1)
  | .auto =>
    match saveToSpecific env st data .opfs with
    | (st1, env1, true) => (st1, env1)
    | (st1, env1, false) =>
      match saveToSpecific env1 st1 data .indexeddb with
      | (st2, env2, true) => (st2, env2)
      | (st2, env2, false) => ({ st2 with activeBackend := .memory }, env2)

/-! ## `sqlite.service.ts` — service operations -/

/-- The backend-detection prologue of `initialize()`: start from
`['memory']`, unshift `'indexeddb'` when `indexedDB` is defined, unshift
`'opfs'` when the OPFS probe passes. -/
def detectBackends (env : Env) (st : SqliteState) : SqliteState :=
  let backends : List ActiveBackend :=
    if env.indexedDBDefined then [.indexeddb, .memory] else [.memory]
  let backends := if env.opfsAvailable then .opfs :: backends else backends
  { st with availableBackends := backends }

/-- `const saved = localStorage.getItem(PREF_KEY); if (saved) this.preferredBackend.set(saved)`. -/
def loadSavedPref (env : Env) (st : SqliteState) : SqliteState :=
  match env.savedPref with
  | some p => { st with preferredBackend := p }
  | none => st

/-- `initialize()`, generalized over the migration registry (the source
calls `runMigrations` which closes over the constant `MIGRATIONS`): detect
backends, adopt the saved preference, load the saved image (or start
fresh), snapshot the pre-migration image, run the migrations; on success
publish the outcome (only when at least one migration was applied), the
new version, and persist the upgraded image; on a thrown `MigrationError`
discard the live instance, reconstruct it from the snapshot, publish the
pre-migration version and the error message — and persist nothing.  Either
way the ready flag becomes true.  (Failure to acquire the WASM engine —
the outer `catch` — is outside this model.) -/
def initializeService (registry : List Migration) (env : Env) (st : SqliteState) :
    Env × SqliteState :=
  let st1 := loadSavedPref env (detectBackends env st)
  match loadFromStorage env st1 with
  | (st2, savedData) =>
    let db0 := newDatabase savedData
    let snapshot := db0.export
    match runMigrations registry db0 with
    | (db1, .ok result) =>
      let st3 := if result.applied.length > 0
                 then { st2 with migrationResult := some result } else st2
      let st4 := { st3 with db := some db1, dbVersion := getDbVersion db1 }
      match saveToStorage env st4 db1.export with
      | (st5, env1) => (env1, { st5 with ready := true })
    | (_, .error e) =>
      let db2 := newDatabase (some snapshot)
      (env, { st2 with
              db := some db2
              dbVersion := getDbVersion db2
              error := some ("Migration failed: " ++ e.message)
              ready := true })

/-- `exec(sql, params)` — `ensureReady`, then run the statement against the
live instance.  The statement's effect on the instance is the opaque
mutation `stmt` (SQL semantics belong to the external engine). -/
def exec (stmt : DB → DB) (st : SqliteState) : Except String SqliteState :=
  match st.db with
  | none => .error notReadyMessage
  | some d => .ok { st with db := some (stmt d) }

/-- `query(sql, params)` — `ensureReady`, then step the prepared statement
to completion, collecting the rows.  The rows the engine produces for the
query are the opaque function `q` of the live instance. -/
def query {Row : Type} (q : DB → List Row) (st : SqliteState) :
    Except String (List Row) :=
  match st.db with
  | none => .error notReadyMessage
  | some d => .ok (q d)

/-- `save()` — `ensureReady`, export the live instance, persist via
`saveToStorage`. -/
def save (env : Env) (st : SqliteState) : Except String (SqliteState × Env) :=
  match st.db with
  | none => .error notReadyMessage
  | some d => .ok (saveToStorage env st d.export)

/-- `close()` — when a live instance exists: a final `save()`, release the
instance, clear the ready flag; otherwise do nothing. -/
def close (env : Env) (st : SqliteState) : Except String (SqliteState × Env) :=
  match st.db with
  | none => .ok (st, env)
  | some _ => do
    let (st1, env1) ← save env st
    .ok ({ st1 with db := none, ready := false }, env1)

/-- `switchBackend(target)` — `ensureReady`, export the live instance, set
the preference signal and its persisted `localStorage` setting, then
re-save the image under the new preference. -/
def switchBackend (target : StorageBackend) (env : Env) (st : SqliteState) :
    Except String (SqliteState × Env) :=
  match st.db with
  | none => .error notReadyMessage
  | some d =>
    let data := d.export
    let st1 := { st with preferredBackend := target }
    let env1 := { env with savedPref := some target }
    .ok (saveToStorage env1 st1 data)

/-! ## Concrete databases for the spec scenarios -/

/-- A fresh empty database (`new SQL.Database()` with no saved image). -/
def freshDb : DB := newDatabase none

/-- A database that has applied only migration v1: version counter 1 and
the `todos` table without the `priority` column. -/
def dbAtVersion1 : DB :=
  { version := 1, tables := [("todos", ["id", "title", "done", "created_at"])] }

/-- The fully migrated database: version counter 2 and the `todos` table
with the `priority` column. -/
def dbAtVersion2 : DB :=
  { version := 2, tables := [("todos", ["id", "title", "done", "created_at", "priority"])] }

/-! ## Lemmas about the migration runner -/

theorem runMigrationsLoop_nil (db : DB) (acc : List AppliedMigration) :
    runMigrationsLoop [] db acc = (db, .ok acc) := rfl

theorem runMigrationsLoop_cons_ok {m : Migration} {db d1 : DB}
    (rest : List Migration) (acc : List AppliedMigration)
    (h : m.up db = .ok d1) :
    runMigrationsLoop (m :: rest) db acc =
      runMigrationsLoop rest { d1 with version := m.version } (acc ++ [appliedEntry m]) := by
  simp [runMigrationsLoop, h]

theorem runMigrationsLoop_cons_error {m : Migration} {db : DB} {cause : String}
    (rest : List Migration) (acc : List AppliedMigration)
    (h : m.up db = .error cause) :
    runMigrationsLoop (m :: rest) db acc =
      (db, .error { version := m.version, description := m.description, cause := cause }) := by
  simp [runMigrationsLoop, h]

/-- When the loop finishes without a thrown error, `applied` extends the
accumulator with one entry per pending migration, in order. -/
theorem runMigrationsLoop_ok_applied :
    ∀ (pending : List Migration) (db : DB) (acc : List AppliedMigration)
      (db1 : DB) (out : List AppliedMigration),
      runMigrationsLoop pending db acc = (db1, .ok out) →
      out = acc ++ pending.map appliedEntry := by
  intro pending
  induction pending with
  | nil =>
    intro db acc db1 out h
    rw [runMigrationsLoop_nil] at h
    cases h
    simp
  | cons m rest ih =>
    intro db acc db1 out h
    cases hup : m.up db with
    | ok d1 =>
      rw [runMigrationsLoop_cons_ok rest acc hup] at h
      have := ih _ _ _ _ h
      simp [this]
    | error cause =>
      rw [runMigrationsLoop_cons_error rest acc hup] at h
      cases h

/-- Splitting the loop at an all-successful prefix. -/
theorem runMigrationsLoop_append :
    ∀ (p q : List Migration) (db : DB) (acc : List AppliedMigration)
      (d1 : DB) (o1 : List AppliedMigration),
      runMigrationsLoop p db acc = (d1, .ok o1) →
      runMigrationsLoop (p ++ q) db acc = runMigrationsLoop q d1 o1 := by
  intro p
  induction p with
  | nil =>
    intro q db acc d1 o1 h
    rw [runMigrationsLoop_nil] at h
    cases h
    simp
  | cons m rest ih =>
    intro q db acc d1 o1 h
    cases hup : m.up db with
    | ok dnext =>
      rw [runMigrationsLoop_cons_ok rest acc hup] at h
      rw [List.cons_append, runMigrationsLoop_cons_ok (rest ++ q) acc hup]
      exact ih _ _ _ _ _ h
    | error cause =>
      rw [runMigrationsLoop_cons_error rest acc hup] at h
      cases h

/-- A loop over a non-empty pending list that finishes without error leaves
the version counter at the last migration's version. -/
theorem runMigrationsLoop_concat_version :
    ∀ (p : List Migration) (m : Migration) (db : DB) (acc : List AppliedMigration)
      (db1 : DB) (out : List AppliedMigration),
      runMigrationsLoop (p ++ [m]) db acc = (db1, .ok out) →
      db1.version = m.version := by
  intro p
  induction p with
  | nil =>
    intro m db acc db1 out h
    simp only [List.nil_append] at h
    cases hup : m.up db with
    | ok d1 =>
      rw [runMigrationsLoop_cons_ok [] acc hup, runMigrationsLoop_nil] at h
      cases h
      rfl
    | error cause =>
      rw [runMigrationsLoop_cons_error [] acc hup] at h
      cases h
  | cons m0 rest ih =>
    intro m db acc db1 out h
    rw [List.cons_append] at h
    cases hup : m0.up db with
    | ok d1 =>
      rw [runMigrationsLoop_cons_ok (rest ++ [m]) acc hup] at h
      exact ih _ _ _ _ _ h
    | error cause =>
      rw [runMigrationsLoop_cons_error (rest ++ [m]) acc hup] at h
      cases h

/-- A thrown `MigrationError` decomposes the pending list: an
all-successful prefix `p` that was committed (the returned instance is
exactly the state after `p`), then the failing migration `m` whose action
failed on that state, the error carrying `m`'s version and description;
the tail after `m` is arbitrary. -/
theorem runMigrationsLoop_error_decomp :
    ∀ (pending : List Migration) (db : DB) (acc : List AppliedMigration)
      (db1 : DB) (e : MigrationError),
      runMigrationsLoop pending db acc = (db1, .error e) →
      ∃ p m rest cause,
        pending = p ++ m :: rest ∧
        runMigrationsLoop p db acc = (db1, .ok (acc ++ p.map appliedEntry)) ∧
        m.up db1 = .error cause ∧
        e = { version := m.version, description := m.description, cause := cause } := by
  intro pending
  induction pending with
  | nil =>
    intro db acc db1 e h
    rw [runMigrationsLoop_nil] at h
    cases h
  | cons m0 rest ih =>
    intro db acc db1 e h
    cases hup : m0.up db with
    | ok d1 =>
      rw [runMigrationsLoop_cons_ok rest acc hup] at h
      obtain ⟨p, m, rest2, cause, hsplit, hpre, hfail, herr⟩ := ih _ _ _ _ h
      refine ⟨m0 :: p, m, rest2, cause, by simp [hsplit], ?_, hfail, herr⟩
      rw [runMigrationsLoop_cons_ok p acc hup]
      simpa using hpre
    | error cause =>
      rw [runMigrationsLoop_cons_error rest acc hup] at h
      cases h
      exact ⟨[], m0, rest, cause, rfl, by simp [runMigrationsLoop_nil], hup, rfl⟩

/-- `runMigrations` unfolded to its loop. -/
theorem runMigrations_eq (registry : List Migration) (db : DB) :
    runMigrations registry db =
      match runMigrationsLoop (pendingMigrations registry (getDbVersion db)) db [] with
      | (db1, .ok applied) =>
        (db1, .ok { fromVersion := getDbVersion db, toVersion := getDbVersion db1,
                    applied := applied })
      | (db1, .error e) => (db1, .error e) := rfl

theorem pendingMigrations_sorted (registry : List Migration) (v : Nat) :
    List.Sorted migrationLE (pendingMigrations registry v) :=
  List.sorted_insertionSort migrationLE _

theorem mem_pendingMigrations {registry : List Migration} {v : Nat} {x : Migration} :
    x ∈ pendingMigrations registry v ↔ x ∈ registry ∧ v < x.version := by
  unfold pendingMigrations
  rw [(List.perm_insertionSort migrationLE _).mem_iff, List.mem_filter]
  simp

/-- In a sorted pending list, every entry's version is at most the last
entry's version. -/
theorem sorted_version_le_concat :
    ∀ (p : List Migration) (m : Migration),
      List.Sorted migrationLE (p ++ [m]) →
      ∀ x ∈ p ++ [m], x.version ≤ m.version := by
  intro p m hs x hx
  rw [List.Sorted, List.pairwise_append] at hs
  rcases List.mem_append.mp hx with hxp | hxm
  · exact hs.2.2 x hxp m (List.mem_singleton_self m)
  · rw [List.mem_singleton.mp hxm]

/-- After a successful run nothing is pending any more: every registry
version is at most the resulting version counter. -/
theorem pendingMigrations_after_ok :
    ∀ (registry : List Migration) (db db1 : DB) (res : MigrationResult),
      runMigrations registry db = (db1, .ok res) →
      pendingMigrations registry db1.version = [] := by
  intro registry db db1 res h
  rw [runMigrations_eq] at h
  cases hl : runMigrationsLoop (pendingMigrations registry (getDbVersion db)) db [] with
  | mk d r =>
    rw [hl] at h
    cases r with
    | error e => cases h
    | ok out =>
      have hdb1 : db1 = d := by
        simp only at h
        cases h
        rfl
      subst hdb1
      rcases List.eq_nil_or_concat (pendingMigrations registry (getDbVersion db)) with
        hnil | ⟨L, m, hconcat⟩
      · rw [hnil, runMigrationsLoop_nil] at hl
        cases hl
        exact hnil
      · rw [List.concat_eq_append] at hconcat
        rw [hconcat] at hl
        have hver : db1.version = m.version :=
          runMigrationsLoop_concat_version L m db [] db1 out hl
        unfold pendingMigrations
        have hfil : registry.filter (fun x => decide (db1.version < x.version)) = [] := by
          rw [List.filter_eq_nil_iff]
          intro x hx
          simp only [decide_eq_true_eq]
          intro hlt
          have hxle : x.version ≤ m.version := by
            by_cases hcase : getDbVersion db < x.version
            · have hxp : x ∈ pendingMigrations registry (getDbVersion db) :=
                mem_pendingMigrations.mpr ⟨hx, hcase⟩
              rw [hconcat] at hxp
              exact sorted_version_le_concat L m
                (hconcat ▸ pendingMigrations_sorted registry (getDbVersion db)) x hxp
            · have hm : m ∈ pendingMigrations registry (getDbVersion db) := by
                rw [hconcat]
                exact List.mem_append.mpr (Or.inr (List.mem_singleton_self m))
              have hmlt : getDbVersion db < m.version :=
                (mem_pendingMigrations.mp hm).2
              exact Nat.le_of_lt
                (Nat.lt_of_le_of_lt (Nat.le_of_not_lt hcase) hmlt)
          rw [hver] at hlt
          exact Nat.not_lt.mpr hxle hlt
        rw [hfil]
        rfl

/-- **C2.** For every pending migration processed in ascending version
order, `runMigrations` opens a transaction, runs the migration's action,
sets the database's version counter to that migration's version and
commits on success; on any failure during the action or commit it rolls
back the transaction (the returned instance is exactly the committed state
after the successful prefix), aborts the run without attempting any
subsequent migration (the tail after the failing migration is irrelevant),
and raises a `MigrationError` carrying the failing migration's version and
description. -/
theorem runMigrations_transactional :
    (∀ (m : Migration) (rest : List Migration) (d d1 : DB)
        (acc : List AppliedMigration),
        m.up d = .ok d1 →
        runMigrationsLoop (m :: rest) d acc =
          runMigrationsLoop rest { d1 with version := m.version }
            (acc ++ [appliedEntry m])) ∧
    (∀ (registry : List Migration) (db db1 : DB) (e : MigrationError),
        runMigrations registry db = (db1, .error e) →
        ∃ p m rest cause,
          pendingMigrations registry (getDbVersion db) = p ++ m :: rest ∧
          runMigrationsLoop p db [] = (db1, .ok (p.map appliedEntry)) ∧
          m.up db1 = .error cause ∧
          e = { version := m.version, description := m.description, cause := cause } ∧
          ∀ rest2, runMigrationsLoop (p ++ m :: rest2) db [] = (db1, .error e)) := by
  constructor
  · intro m rest d d1 acc h
    exact runMigrationsLoop_cons_ok rest acc h
  · intro registry db db1 e h
    rw [runMigrations_eq] at h
    cases hl : runMigrationsLoop (pendingMigrations registry (getDbVersion db)) db [] with
    | mk d r =>
      rw [hl] at h
      cases r with
      | ok out => cases h
      | error e0 =>
        obtain ⟨p, m, rest, cause, hsplit, hpre, hfail, herr⟩ :=
          runMigrationsLoop_error_decomp _ db [] d e0 hl
        simp only at h
        cases h
        simp only [List.nil_append] at hpre
        refine ⟨p, m, rest, cause, hsplit, hpre, hfail, herr, ?_⟩
        intro rest2
        rw [runMigrationsLoop_append p (m :: rest2) db [] db1 (p.map appliedEntry) hpre,
          runMigrationsLoop_cons_error rest2 (p.map appliedEntry) hfail, herr]

/-- **C2 witness.** A registry whose single migration always throws. -/
theorem runMigrations_transactional_witness :
    ∃ p m rest cause,
      pendingMigrations
        [⟨1, "boom", fun _ => Except.error "boom"⟩] (getDbVersion freshDb) =
        p ++ m :: rest ∧
      runMigrationsLoop p freshDb [] = (freshDb, .ok (p.map appliedEntry)) ∧
      m.up freshDb = .error cause ∧
      ({ version := 1, description := "boom", cause := "boom" } : MigrationError) =
        { version := m.version, description := m.description, cause := cause } ∧
      ∀ rest2, runMigrationsLoop (p ++ m :: rest2) freshDb [] =
        (freshDb, .error { version := 1, description := "boom", cause := "boom" }) :=
  runMigrations_transactional.2
    [⟨1, "boom", fun _ => Except.error "boom"⟩] freshDb freshDb
    { version := 1, description := "boom", cause := "boom" } rfl

/-- **C3.** A successful `runMigrations` on a database at version `v0`
selects exactly the registry entries with version `> v0` sorted ascending,
applies them in that order, and returns an outcome whose `fromVersion` is
`v0`, whose `applied` list records each applied entry's version and
description in order, and whose `toVersion` is read after the loop (equal
to `v0` when nothing was applied).  Concretely, on a fresh database the
shipped registry applies versions 1 then 2 and `toVersion` becomes 2; on a
database at version 1 it applies only version 2. -/
theorem runMigrations_pending_outcome :
    (∀ (registry : List Migration) (db db1 : DB) (res : MigrationResult),
        runMigrations registry db = (db1, .ok res) →
        res.fromVersion = getDbVersion db ∧
        res.toVersion = getDbVersion db1 ∧
        res.applied = (pendingMigrations registry (getDbVersion db)).map appliedEntry ∧
        (res.applied = [] → res.toVersion = res.fromVersion)) ∧
    runMigrations MIGRATIONS freshDb =
      (dbAtVersion2,
       .ok ⟨0, 2, [⟨1, "Create todos table"⟩, ⟨2, "Add priority column to todos"⟩]⟩) ∧
    runMigrations MIGRATIONS dbAtVersion1 =
      (dbAtVersion2, .ok ⟨1, 2, [⟨2, "Add priority column to todos"⟩]⟩) := by
  refine ⟨?_, rfl, rfl⟩
  intro registry db db1 res h
  rw [runMigrations_eq] at h
  cases hl : runMigrationsLoop (pendingMigrations registry (getDbVersion db)) db [] with
  | mk d r =>
    rw [hl] at h
    cases r with
    | error e => cases h
    | ok out =>
      have happ : out = (pendingMigrations registry (getDbVersion db)).map appliedEntry := by
        have := runMigrationsLoop_ok_applied _ db [] d out hl
        simpa using this
      simp only at h
      cases h
      refine ⟨rfl, rfl, happ, ?_⟩
      intro hnilapp
      have hout : out = [] := hnilapp
      rw [hout] at happ
      have hpnil : pendingMigrations registry (getDbVersion db) = [] :=
        List.map_eq_nil_iff.mp happ.symm
      show getDbVersion db1 = getDbVersion db
      rw [hpnil, runMigrationsLoop_nil] at hl
      cases hl
      rfl

/-- **C3 witness.** The general part instantiated on the fresh database
with the shipped registry. -/
theorem runMigrations_pending_outcome_witness :
    (⟨0, 2, [⟨1, "Create todos table"⟩, ⟨2, "Add priority column to todos"⟩]⟩ :
        MigrationResult).fromVersion = getDbVersion freshDb ∧
    (⟨0, 2, [⟨1, "Create todos table"⟩, ⟨2, "Add priority column to todos"⟩]⟩ :
        MigrationResult).toVersion = getDbVersion dbAtVersion2 ∧
    (⟨0, 2, [⟨1, "Create todos table"⟩, ⟨2, "Add priority column to todos"⟩]⟩ :
        MigrationResult).applied =
      (pendingMigrations MIGRATIONS (getDbVersion freshDb)).map appliedEntry ∧
    ((⟨0, 2, [⟨1, "Create todos table"⟩, ⟨2, "Add priority column to todos"⟩]⟩ :
        MigrationResult).applied = [] →
      (⟨0, 2, [⟨1, "Create todos table"⟩, ⟨2, "Add priority column to todos"⟩]⟩ :
        MigrationResult).toVersion =
      (⟨0, 2, [⟨1, "Create todos table"⟩, ⟨2, "Add priority column to todos"⟩]⟩ :
        MigrationResult).fromVersion) :=
  runMigrations_pending_outcome.1 MIGRATIONS freshDb dbAtVersion2
    ⟨0, 2, [⟨1, "Create todos table"⟩, ⟨2, "Add priority column to todos"⟩]⟩ rfl

/-- **C4.** The runner is idempotent: after a successful run, running it
again applies nothing, returns `toVersion = fromVersion`, and does not
raise; likewise, running it on an already-current database (version at
least every registry version) is a no-op returning an empty `applied`
list. -/
theorem runMigrations_idempotent :
    (∀ (registry : List Migration) (db db1 : DB) (res1 : MigrationResult),
        runMigrations registry db = (db1, .ok res1) →
        runMigrations registry db1 = (db1, .ok ⟨db1.version, db1.version, []⟩)) ∧
    (∀ (registry : List Migration) (db : DB),
        (∀ m ∈ registry, m.version ≤ db.version) →
        runMigrations registry db = (db, .ok ⟨db.version, db.version, []⟩)) := by
  constructor
  · intro registry db db1 res1 h
    have hpend := pendingMigrations_after_ok registry db db1 res1 h
    rw [runMigrations_eq]
    have hgd : getDbVersion db1 = db1.version := rfl
    rw [hgd, hpend, runMigrationsLoop_nil]
    rfl
  · intro registry db hcur
    have hpend : pendingMigrations registry db.version = [] := by
      unfold pendingMigrations
      have hfil : registry.filter (fun x => decide (db.version < x.version)) = [] := by
        rw [List.filter_eq_nil_iff]
        intro x hx
        simp only [decide_eq_true_eq]
        exact Nat.not_lt.mpr (hcur x hx)
      rw [hfil]
      rfl
    rw [runMigrations_eq]
    have hgd : getDbVersion db = db.version := rfl
    rw [hgd, hpend, runMigrationsLoop_nil]
    rfl

/-- **C4 witness.** Both parts instantiated: re-running after the shipped
registry migrated a fresh database, and running on an already-current
database. -/
theorem runMigrations_idempotent_witness :
    runMigrations MIGRATIONS dbAtVersion2 =
      (dbAtVersion2, .ok ⟨dbAtVersion2.version, dbAtVersion2.version, []⟩) ∧
    runMigrations MIGRATIONS dbAtVersion2 =
      (dbAtVersion2, .ok ⟨dbAtVersion2.version, dbAtVersion2.version, []⟩) :=
  ⟨runMigrations_idempotent.1 MIGRATIONS freshDb dbAtVersion2
      ⟨0, 2, [⟨1, "Create todos table"⟩, ⟨2, "Add priority column to todos"⟩]⟩ rfl,
    runMigrations_idempotent.2 MIGRATIONS dbAtVersion2 (by decide)⟩

/-! ## Lemmas about the storage gateway -/

/-- `saveToSpecific` leaves the live instance, the preference signal, the
last migration outcome, and the persisted preference setting untouched (it
only sets `activeBackend` and stored images). -/
theorem saveToSpecific_preserves (env : Env) (st : SqliteState) (data : Image)
    (b : ActiveBackend) :
    (saveToSpecific env st data b).1.db = st.db ∧
    (saveToSpecific env st data b).1.preferredBackend = st.preferredBackend ∧
    (saveToSpecific env st data b).1.migrationResult = st.migrationResult ∧
    (saveToSpecific env st data b).2.1.savedPref = env.savedPref := by
  cases b <;> simp only [saveToSpecific, Env.idbSetOk] <;> (try split) <;> simp

/-- `saveToStorage` leaves the live instance, the preference signal, the
last migration outcome, and the persisted preference setting untouched. -/
theorem saveToStorage_preserves (env : Env) (st : SqliteState) (data : Image) :
    (saveToStorage env st data).1.db = st.db ∧
    (saveToStorage env st data).1.preferredBackend = st.preferredBackend ∧
    (saveToStorage env st data).1.migrationResult = st.migrationResult ∧
    (saveToStorage env st data).2.savedPref = env.savedPref := by
  cases hpref : st.preferredBackend with
  | opfs =>
    have hres : resolveBackend st = StorageBackend.opfs := hpref
    have p := saveToSpecific_preserves env st data .opfs
    rcases h : saveToSpecific env st data .opfs with ⟨s1, e1, ok1⟩
    rw [h] at p
    simp only [saveToStorage, hres, h]
    exact ⟨p.1, p.2.1.trans hpref, p.2.2.1, p.2.2.2⟩
  | indexeddb =>
    have hres : resolveBackend st = StorageBackend.indexeddb := hpref
    have p := saveToSpecific_preserves env st data .indexeddb
    rcases h : saveToSpecific env st data .indexeddb with ⟨s1, e1, ok1⟩
    rw [h] at p
    simp only [saveToStorage, hres, h]
    exact ⟨p.1, p.2.1.trans hpref, p.2.2.1, p.2.2.2⟩
  | memory =>
    have hres : resolveBackend st = StorageBackend.memory := hpref
    have p := saveToSpecific_preserves env st data .memory
    rcases h : saveToSpecific env st data .memory with ⟨s1, e1, ok1⟩
    rw [h] at p
    simp only [saveToStorage, hres, h]
    exact ⟨p.1, p.2.1.trans hpref, p.2.2.1, p.2.2.2⟩
  | auto =>
    have hres : resolveBackend st = StorageBackend.auto := hpref
    have p1 := saveToSpecific_preserves env st data .opfs
    rcases h1 : saveToSpecific env st data .opfs with ⟨s1, e1, ok1⟩
    rw [h1] at p1
    simp only [saveToStorage, hres, h1]
    cases ok1 with
    | true => exact ⟨p1.1, p1.2.1.trans hpref, p1.2.2.1, p1.2.2.2⟩
    | false =>
      have p2 := saveToSpecific_preserves e1 s1 data .indexeddb
      rcases h2 : saveToSpecific e1 s1 data .indexeddb with ⟨s2, e2, ok2⟩
      rw [h2] at p2
      simp only [h2]
      cases ok2 with
      | true =>
        exact ⟨p2.1.trans p1.1, p2.2.1.trans (p1.2.1.trans hpref),
          p2.2.2.1.trans p1.2.2.1, p2.2.2.2.trans p1.2.2.2⟩
      | false =>
        exact ⟨p2.1.trans p1.1, p2.2.1.trans (p1.2.1.trans hpref),
          p2.2.2.1.trans p1.2.2.1, p2.2.2.2.trans p1.2.2.2⟩

/-- `loadFromSpecific` leaves everything but `activeBackend` untouched. -/
theorem loadFromSpecific_preserves (env : Env) (st : SqliteState) (b : ActiveBackend) :
    (loadFromSpecific env st b).1.db = st.db ∧
    (loadFromSpecific env st b).1.preferredBackend = st.preferredBackend ∧
    (loadFromSpecific env st b).1.migrationResult = st.migrationResult := by
  cases b <;> simp only [loadFromSpecific, Env.idbGet] <;> (repeat' split) <;> simp

/-- `loadFromStorage` leaves everything but `activeBackend` untouched. -/
theorem loadFromStorage_preserves (env : Env) (st : SqliteState) :
    (loadFromStorage env st).1.db = st.db ∧
    (loadFromStorage env st).1.preferredBackend = st.preferredBackend ∧
    (loadFromStorage env st).1.migrationResult = st.migrationResult := by
  cases hpref : st.preferredBackend with
  | opfs =>
    have hres : resolveBackend st = StorageBackend.opfs := hpref
    have p := loadFromSpecific_preserves env st .opfs
    rcases h : loadFromSpecific env st .opfs with ⟨s1, r1⟩
    rw [h] at p
    simp only [loadFromStorage, hres, h]
    exact ⟨p.1, p.2.1.trans hpref, p.2.2⟩
  | indexeddb =>
    have hres : resolveBackend st = StorageBackend.indexeddb := hpref
    have p := loadFromSpecific_preserves env st .indexeddb
    rcases h : loadFromSpecific env st .indexeddb with ⟨s1, r1⟩
    rw [h] at p
    simp only [loadFromStorage, hres, h]
    exact ⟨p.1, p.2.1.trans hpref, p.2.2⟩
  | memory =>
    have hres : resolveBackend st = StorageBackend.memory := hpref
    have p := loadFromSpecific_preserves env st .memory
    rcases h : loadFromSpecific env st .memory with ⟨s1, r1⟩
    rw [h] at p
    simp only [loadFromStorage, hres, h]
    exact ⟨p.1, p.2.1.trans hpref, p.2.2⟩
  | auto =>
    have hres : resolveBackend st = StorageBackend.auto := hpref
    have p1 := loadFromSpecific_preserves env st .opfs
    rcases h1 : loadFromSpecific env st .opfs with ⟨s1, r1⟩
    rw [h1] at p1
    simp only [loadFromStorage, hres, h1]
    cases r1 with
    | some img => exact ⟨p1.1, p1.2.1.trans hpref, p1.2.2⟩
    | none =>
      have p2 := loadFromSpecific_preserves env s1 .indexeddb
      rcases h2 : loadFromSpecific env s1 .indexeddb with ⟨s2, r2⟩
      rw [h2] at p2
      simp only [h2]
      cases r2 with
      | some img =>
        exact ⟨p2.1.trans p1.1, p2.2.1.trans (p1.2.1.trans hpref), p2.2.2.trans p1.2.2⟩
      | none =>
        exact ⟨p2.1.trans p1.1, p2.2.1.trans (p1.2.1.trans hpref), p2.2.2.trans p1.2.2⟩

/-- `detectBackends` and `loadSavedPref` leave the live instance and the
last migration outcome untouched. -/
theorem initPrologue_preserves (env : Env) (st : SqliteState) :
    (loadSavedPref env (detectBackends env st)).db = st.db ∧
    (loadSavedPref env (detectBackends env st)).migrationResult = st.migrationResult := by
  cases h : env.savedPref <;> simp [loadSavedPref, detectBackends, h]

/-- An environment with no storage capability at all: no OPFS, no
IndexedDB, nothing stored, no persisted preference. -/
def envNothing : Env :=
  { opfsAvailable := false
    indexedDBDefined := false
    opfsFile := none
    idbData := none
    opfsWriteOk := false
    idbWriteOk := false
    savedPref := none }

/-- **C1.** When the migration runner throws a `MigrationError` during
`initialize()`, initialization still completes with the ready flag true;
the live instance is discarded and reconstructed from the pre-migration
snapshot, so the published schema version equals the pre-migration
version; the error message is attached to the observable error state; and
`saveToStorage` is not invoked on the failure path, so the environment —
in particular the stored images — is returned exactly as it was. -/
theorem initialize_migration_failure :
    ∀ (registry : List Migration) (env : Env) (st st2 : SqliteState)
      (savedData : Option Image) (db1 : DB) (e : MigrationError),
      loadFromStorage env (loadSavedPref env (detectBackends env st)) = (st2, savedData) →
      runMigrations registry (newDatabase savedData) = (db1, .error e) →
      initializeService registry env st =
        (env, { st2 with
                db := some (newDatabase savedData)
                dbVersion := (newDatabase savedData).version
                error := some ("Migration failed: " ++ e.message)
                ready := true }) := by
  intro registry env st st2 savedData db1 e h1 h2
  simp only [initializeService, h1, h2]
  rfl

/-- **C1 witness.** A bare environment and a registry whose single
migration always throws. -/
theorem initialize_migration_failure_witness :
    initializeService [⟨1, "boom", fun _ => Except.error "boom"⟩] envNothing initialState =
      (envNothing, { initialState with
                db := some (newDatabase none)
                dbVersion := (newDatabase none).version
                error := some ("Migration failed: " ++
                  (MigrationError.mk 1 "boom" "boom").message)
                ready := true }) :=
  initialize_migration_failure [⟨1, "boom", fun _ => Except.error "boom"⟩]
    envNothing initialState initialState none freshDb ⟨1, "boom", "boom"⟩ rfl rfl

/-- **C10.** The `migrationResult` observable is updated only when a run
applies at least one migration: after an `initialize()` whose run returns
an empty `applied` list, `migrationResult` keeps its prior value — and its
initial value is `null`. -/
theorem migrationResult_frame :
    (∀ (registry : List Migration) (env : Env) (st st2 : SqliteState)
        (savedData : Option Image) (db1 : DB) (res : MigrationResult),
        loadFromStorage env (loadSavedPref env (detectBackends env st)) = (st2, savedData) →
        runMigrations registry (newDatabase savedData) = (db1, .ok res) →
        res.applied = [] →
        (initializeService registry env st).2.migrationResult = st.migrationResult) ∧
    initialState.migrationResult = none := by
  refine ⟨?_, rfl⟩
  intro registry env st st2 savedData db1 res h1 h2 happ
  simp only [initializeService, h1, h2, happ, List.length_nil, Nat.lt_irrefl, if_false]
  have hsave := saveToStorage_preserves env
    { st2 with db := some db1, dbVersion := getDbVersion db1 } db1.export
  rcases hsv : saveToStorage env
      { st2 with db := some db1, dbVersion := getDbVersion db1 } db1.export with ⟨s5, e5⟩
  rw [hsv] at hsave
  have hld := loadFromStorage_preserves env (loadSavedPref env (detectBackends env st))
  rw [h1] at hld
  have hpro := initPrologue_preserves env st
  simp only [hsv]
  calc ({ s5 with ready := true } : SqliteState).migrationResult
      = s5.migrationResult := rfl
    _ = st2.migrationResult := hsave.2.2.1
    _ = (loadSavedPref env (detectBackends env st)).migrationResult := hld.2.2
    _ = st.migrationResult := hpro.2

/-- **C10 witness.** An empty registry applies nothing and leaves the
initial `null` outcome in place. -/
theorem migrationResult_frame_witness :
    (initializeService [] envNothing initialState).2.migrationResult =
      initialState.migrationResult ∧
    initialState.migrationResult = none :=
  ⟨migrationResult_frame.1 [] envNothing initialState initialState none freshDb
      ⟨0, 0, []⟩ rfl rfl rfl,
    migrationResult_frame.2⟩

/-- **C7.** `exec`, `query` and `save` fail with the NotReady error — not
silently — whenever there is no live instance (which is the case initially
and again after any successful `close()`), and never fail with it while a
live instance is present. -/
theorem notReady_gating :
    (∀ (stmt : DB → DB) (st : SqliteState), st.db = none →
        exec stmt st = .error notReadyMessage) ∧
    (∀ (Row : Type) (q : DB → List Row) (st : SqliteState), st.db = none →
        query q st = .error notReadyMessage) ∧
    (∀ (env : Env) (st : SqliteState), st.db = none →
        save env st = .error notReadyMessage) ∧
    initialState.db = none ∧
    (∀ (env : Env) (st st2 : SqliteState) (env2 : Env),
        close env st = .ok (st2, env2) → st2.db = none) ∧
    (∀ (stmt : DB → DB) (st : SqliteState) (d : DB), st.db = some d →
        exec stmt st = .ok { st with db := some (stmt d) }) ∧
    (∀ (Row : Type) (q : DB → List Row) (st : SqliteState) (d : DB), st.db = some d →
        query q st = .ok (q d)) ∧
    (∀ (env : Env) (st : SqliteState) (d : DB), st.db = some d →
        save env st = .ok (saveToStorage env st d.export)) := by
  refine ⟨?_, ?_, ?_, rfl, ?_, ?_, ?_, ?_⟩
  · intro stmt st h
    simp [exec, h]
  · intro Row q st h
    simp [query, h]
  · intro env st h
    simp [save, h]
  · intro env st st2 env2 h
    cases hdb : st.db with
    | none =>
      simp only [close, hdb] at h
      cases h
      exact hdb
    | some d =>
      rcases hsv : saveToStorage env st d.export with ⟨s1, e1⟩
      have hcl : close env st = .ok ({ s1 with db := none, ready := false }, e1) := by
        simp only [close, save, hdb, hsv]
        rfl
      rw [hcl] at h
      cases h
      rfl
  · intro stmt st d h
    simp [exec, h]
  · intro Row q st d h
    simp [query, h]
  · intro env st d h
    simp [save, h]

/-- **C7 witness.** Concrete NotReady failures on the initial state and
successes on a ready state. -/
theorem notReady_gating_witness :
    exec id initialState = .error notReadyMessage ∧
    query (fun _ => ([] : List Nat)) initialState = .error notReadyMessage ∧
    save envNothing initialState = .error notReadyMessage ∧
    exec id { initialState with db := some freshDb } =
      .ok { { initialState with db := some freshDb } with db := some (id freshDb) } ∧
    query (fun _ => ([] : List Nat)) { initialState with db := some freshDb } =
      .ok [] ∧
    save envNothing { initialState with db := some freshDb } =
      .ok (saveToStorage envNothing { initialState with db := some freshDb }
        freshDb.export) :=
  ⟨notReady_gating.1 id initialState rfl,
    notReady_gating.2.1 Nat (fun _ => []) initialState rfl,
    notReady_gating.2.2.1 envNothing initialState rfl,
    notReady_gating.2.2.2.2.2.1 id { initialState with db := some freshDb } freshDb rfl,
    notReady_gating.2.2.2.2.2.2.1 Nat (fun _ => []) { initialState with db := some freshDb }
      freshDb rfl,
    notReady_gating.2.2.2.2.2.2.2 envNothing { initialState with db := some freshDb }
      freshDb rfl⟩

/-- **C8.** `switchBackend(target)` in the Ready state updates the
preference signal and its persisted setting to `target` and immediately
re-saves the current image under the new preference; switching to an
unavailable medium does not throw — nothing is persisted (the environment
keeps only the new preference setting) and the data stays only in the live
in-memory instance. -/
theorem switchBackend_updates_and_resaves :
    (∀ (target : StorageBackend) (env : Env) (st : SqliteState) (d : DB),
        st.db = some d →
        switchBackend target env st =
          .ok (saveToStorage { env with savedPref := some target }
                { st with preferredBackend := target } d.export) ∧
        (saveToStorage { env with savedPref := some target }
            { st with preferredBackend := target } d.export).1.preferredBackend = target ∧
        (saveToStorage { env with savedPref := some target }
            { st with preferredBackend := target } d.export).2.savedPref = some target ∧
        (saveToStorage { env with savedPref := some target }
            { st with preferredBackend := target } d.export).1.db = some d) ∧
    (∀ (env : Env) (st : SqliteState) (d : DB),
        st.db = some d → env.opfsAvailable = false →
        switchBackend .opfs env st =
          .ok ({ st with preferredBackend := .opfs },
               { env with savedPref := some StorageBackend.opfs })) := by
  constructor
  · intro target env st d h
    have p := saveToStorage_preserves { env with savedPref := some target }
      { st with preferredBackend := target } d.export
    refine ⟨by simp [switchBackend, h], p.2.1, p.2.2.2, ?_⟩
    rw [p.1]
    exact h
  · intro env st d h hopfs
    simp [switchBackend, h, saveToStorage, resolveBackend, saveToSpecific, hopfs]

/-- **C8 witness.** Switching to the unavailable OPFS medium on a bare
environment: no throw, preference updated, image unpersisted. -/
theorem switchBackend_updates_and_resaves_witness :
    switchBackend .opfs envNothing { initialState with db := some freshDb } =
      .ok ({ { initialState with db := some freshDb } with preferredBackend := .opfs },
           { envNothing with savedPref := some StorageBackend.opfs }) :=
  switchBackend_updates_and_resaves.2 envNothing
    { initialState with db := some freshDb } freshDb rfl rfl

/-- **C9.** `close()` on a Ready handle performs a final save of the
exported image, releases the live instance and clears the ready flag;
calling it when already closed is a no-op: it does not throw and leaves
both state and environment unchanged. -/
theorem close_saves_and_idempotent :
    (∀ (env : Env) (st : SqliteState) (d : DB), st.db = some d →
        close env st =
          .ok ({ (saveToStorage env st d.export).1 with db := none, ready := false },
               (saveToStorage env st d.export).2)) ∧
    (∀ (env : Env) (st : SqliteState), st.db = none →
        close env st = .ok (st, env)) := by
  constructor
  · intro env st d h
    simp only [close, save, h]
    rfl
  · intro env st h
    simp [close, h]

/-- **C9 witness.** Closing a ready handle, then closing the resulting
already-closed handle. -/
theorem close_saves_and_idempotent_witness :
    close envNothing { initialState with db := some freshDb } =
      .ok ({ (saveToStorage envNothing { initialState with db := some freshDb }
                freshDb.export).1 with db := none, ready := false },
           (saveToStorage envNothing { initialState with db := some freshDb }
              freshDb.export).2) ∧
    close envNothing initialState = .ok (initialState, envNothing) :=
  ⟨close_saves_and_idempotent.1 envNothing
      { initialState with db := some freshDb } freshDb rfl,
    close_saves_and_idempotent.2 envNothing initialState rfl⟩

/-- A reachable state with an explicit OPFS preference whose active
backend is still IndexedDB (e.g. after `switchBackend('opfs')` following a
load from IndexedDB). -/
def stExplicitOpfs : SqliteState :=
  { initialState with preferredBackend := .opfs, activeBackend := .indexeddb }

/-- **C5 counterexample.** Under the concrete explicit preference `opfs`
with the medium unavailable, the save's only candidate fails (the
environment comes back unchanged: nothing was persisted), yet the fallback
`memory` medium is *not* marked active — `activeBackend` stays
`indexeddb`.  The claim's "if every candidate fails the fallback (memory)
medium is marked active — for every preference value, including a concrete
explicit preference" is false on the code. -/
theorem saveToStorage_explicit_failure_keeps_active :
    (saveToStorage envNothing stExplicitOpfs freshDb.export).1.activeBackend =
      ActiveBackend.indexeddb ∧
    (saveToStorage envNothing stExplicitOpfs freshDb.export).2 = envNothing ∧
    ((saveToStorage envNothing stExplicitOpfs freshDb.export).1.activeBackend =
        ActiveBackend.memory → False) := by
  decide

/-- **C5 (amended).** Storage-medium read/write failures are never
surfaced: reads that fail behave as absence and writes that fail are
absorbed.  Under automatic preference, load falls through from an absent
OPFS to IndexedDB and then to nothing (marking `memory` active), and save
falls through from a failing OPFS to IndexedDB, marking the successful
medium active, or `memory` when every candidate fails.  Under a concrete
explicit preference only that single medium is attempted; a failing read
yields absence and a failing write is absorbed leaving the state and
environment — in particular `activeBackend` — unchanged (memory is *not*
marked active). -/
theorem storage_failures_absorbed :
    (∀ (env : Env) (st : SqliteState) (img : Image),
        resolveBackend st = .auto →
        env.opfsAvailable = false ∨ env.opfsFile = none →
        env.idbGet = some img →
        loadFromStorage env st = ({ st with activeBackend := .indexeddb }, some img)) ∧
    (∀ (env : Env) (st : SqliteState),
        resolveBackend st = .auto →
        env.opfsAvailable = false ∨ env.opfsFile = none →
        env.idbGet = none →
        loadFromStorage env st = ({ st with activeBackend := .memory }, none)) ∧
    (∀ (env : Env) (st : SqliteState) (data : Image),
        resolveBackend st = .auto →
        env.opfsAvailable = false ∨ env.opfsWriteOk = false →
        env.idbSetOk = true →
        saveToStorage env st data =
          ({ st with activeBackend := .indexeddb }, { env with idbData := some data })) ∧
    (∀ (env : Env) (st : SqliteState) (data : Image),
        resolveBackend st = .auto →
        env.opfsAvailable = false ∨ env.opfsWriteOk = false →
        env.idbSetOk = false →
        saveToStorage env st data = ({ st with activeBackend := .memory }, env)) ∧
    (∀ (env : Env) (st : SqliteState) (data : Image),
        resolveBackend st = .opfs →
        env.opfsAvailable = false ∨ env.opfsWriteOk = false →
        saveToStorage env st data = (st, env)) ∧
    (∀ (env : Env) (st : SqliteState) (data : Image),
        resolveBackend st = .indexeddb →
        env.idbSetOk = false →
        saveToStorage env st data = (st, env)) ∧
    (∀ (env : Env) (st : SqliteState),
        resolveBackend st = .opfs →
        env.opfsAvailable = false ∨ env.opfsFile = none →
        loadFromStorage env st = (st, none)) ∧
    (∀ (env : Env) (st : SqliteState),
        resolveBackend st = .indexeddb →
        env.idbGet = none →
        loadFromStorage env st = (st, none)) := by
  refine ⟨?_, ?_, ?_, ?_, ?_, ?_, ?_, ?_⟩
  · intro env st img hres hopfs hidb
    rcases hopfs with h | h <;>
      simp [loadFromStorage, hres, loadFromSpecific, h, hidb]
  · intro env st hres hopfs hidb
    rcases hopfs with h | h <;>
      simp [loadFromStorage, hres, loadFromSpecific, h, hidb]
  · intro env st data hres hopfs hidb
    rcases hopfs with h | h <;>
      simp [saveToStorage, hres, saveToSpecific, h, hidb]
  · intro env st data hres hopfs hidb
    rcases hopfs with h | h <;>
      simp [saveToStorage, hres, saveToSpecific, h, hidb]
  · intro env st data hres hopfs
    rcases hopfs with h | h <;>
      simp [saveToStorage, hres, saveToSpecific, h]
  · intro env st data hres hidb
    simp [saveToStorage, hres, saveToSpecific, hidb]
  · intro env st hres hopfs
    rcases hopfs with h | h <;>
      simp [loadFromStorage, hres, loadFromSpecific, h]
  · intro env st hres hidb
    simp [loadFromStorage, hres, loadFromSpecific, hidb]

/-- **C5 (amended) witness.** The all-fail automatic save and the absorbed
explicit-preference failure, at concrete inputs. -/
theorem storage_failures_absorbed_witness :
    saveToStorage envNothing initialState freshDb.export =
      ({ initialState with activeBackend := .memory }, envNothing) ∧
    saveToStorage envNothing stExplicitOpfs freshDb.export =
      (stExplicitOpfs, envNothing) :=
  ⟨storage_failures_absorbed.2.2.2.1 envNothing initialState freshDb.export rfl
      (Or.inl rfl) rfl,
    storage_failures_absorbed.2.2.2.2.1 envNothing stExplicitOpfs freshDb.export rfl
      (Or.inl rfl)⟩

/-- An environment where OPFS is available and writable but holds no image
yet, while IndexedDB is fully available and holds the image. -/
def envOpfsEmptyIdbHolds : Env :=
  { opfsAvailable := true
    indexedDBDefined := true
    opfsFile := none
    idbData := some (DB.export dbAtVersion2)
    opfsWriteOk := true
    idbWriteOk := true
    savedPref := none }

/-- **C6 counterexample.** Under automatic preference the image is loaded
from IndexedDB (which remains fully available for writing), yet the very
next save goes to OPFS: `activeBackend` becomes `opfs` and the IndexedDB
image is left stale.  The claim's "under automatic preference whatever
medium an image loaded from is the medium it is saved back to while that
medium remains available" is false on the code. -/
theorem load_save_medium_asymmetry :
    (loadFromStorage envOpfsEmptyIdbHolds initialState).1.activeBackend =
      ActiveBackend.indexeddb ∧
    (loadFromStorage envOpfsEmptyIdbHolds initialState).2 =
      some (DB.export dbAtVersion2) ∧
    envOpfsEmptyIdbHolds.idbSetOk = true ∧
    (saveToStorage envOpfsEmptyIdbHolds
        (loadFromStorage envOpfsEmptyIdbHolds initialState).1
        (DB.export freshDb)).1.activeBackend = ActiveBackend.opfs ∧
    (saveToStorage envOpfsEmptyIdbHolds
        (loadFromStorage envOpfsEmptyIdbHolds initialState).1
        (DB.export freshDb)).2.idbData = some (DB.export dbAtVersion2) := by
  decide

/-- **C6 (amended).** When the preference names a concrete medium, both
load and save attempt only that single medium (the same
`resolveBackend` resolution drives both, and neither redirects to another
medium: an explicit save leaves every other medium's stored image
untouched).  Under automatic preference, an image loaded from OPFS is
saved back to OPFS while OPFS remains writable; an image loaded from
IndexedDB is saved back to IndexedDB only provided OPFS does not accept
the write — save retries the fixed priority order, so a writable OPFS
takes the save over even when the image was loaded from IndexedDB. -/
theorem backend_resolution_symmetry :
    (∀ (env : Env) (st : SqliteState),
        resolveBackend st = .opfs →
        loadFromStorage env st = loadFromSpecific env st .opfs) ∧
    (∀ (env : Env) (st : SqliteState),
        resolveBackend st = .indexeddb →
        loadFromStorage env st = loadFromSpecific env st .indexeddb) ∧
    (∀ (env : Env) (st : SqliteState),
        resolveBackend st = .memory →
        loadFromStorage env st = loadFromSpecific env st .memory) ∧
    (∀ (env : Env) (st : SqliteState) (data : Image),
        resolveBackend st = .opfs →
        (saveToStorage env st data).2.idbData = env.idbData) ∧
    (∀ (env : Env) (st : SqliteState) (data : Image),
        resolveBackend st = .indexeddb →
        (saveToStorage env st data).2.opfsFile = env.opfsFile) ∧
    (∀ (env : Env) (st : SqliteState) (data : Image),
        resolveBackend st = .memory →
        (saveToStorage env st data).2 = env) ∧
    (∀ (env : Env) (st : SqliteState) (img data : Image),
        resolveBackend st = .auto →
        env.opfsAvailable = true → env.opfsFile = some img → env.opfsWriteOk = true →
        loadFromStorage env st = ({ st with activeBackend := .opfs }, some img) ∧
        saveToStorage env st data =
          ({ st with activeBackend := .opfs }, { env with opfsFile := some data })) ∧
    (∀ (env : Env) (st : SqliteState) (img data : Image),
        resolveBackend st = .auto →
        env.opfsAvailable = false ∨ env.opfsFile = none →
        env.idbGet = some img →
        env.opfsAvailable = false ∨ env.opfsWriteOk = false →
        env.idbSetOk = true →
        loadFromStorage env st = ({ st with activeBackend := .indexeddb }, some img) ∧
        saveToStorage env st data =
          ({ st with activeBackend := .indexeddb }, { env with idbData := some data })) := by
  refine ⟨?_, ?_, ?_, ?_, ?_, ?_, ?_, ?_⟩
  · intro env st hres
    simp [loadFromStorage, hres]
  · intro env st hres
    simp [loadFromStorage, hres]
  · intro env st hres
    simp [loadFromStorage, hres]
  · intro env st data hres
    simp only [saveToStorage, hres, saveToSpecific]
    split <;> rfl
  · intro env st data hres
    simp only [saveToStorage, hres, saveToSpecific]
    split <;> rfl
  · intro env st data hres
    simp only [saveToStorage, hres, saveToSpecific]
  · intro env st img data hres hav hfile hwr
    constructor
    · simp [loadFromStorage, hres, loadFromSpecific, hav, hfile]
    · simp [saveToStorage, hres, saveToSpecific, hav, hwr]
  · intro env st img data hres hloadabs hidb hsaveabs hset
    constructor
    · rcases hloadabs with h | h <;>
        simp [loadFromStorage, hres, loadFromSpecific, h, hidb]
    · rcases hsaveabs with h | h <;>
        simp [saveToStorage, hres, saveToSpecific, h, hset]

/-- **C6 (amended) witness.** The explicit-preference and symmetric-OPFS
conjuncts at concrete inputs. -/
theorem backend_resolution_symmetry_witness :
    loadFromStorage envNothing stExplicitOpfs =
      loadFromSpecific envNothing stExplicitOpfs .opfs ∧
    (saveToStorage envNothing stExplicitOpfs freshDb.export).2.idbData =
      envNothing.idbData ∧
    (loadFromStorage { envOpfsEmptyIdbHolds with opfsFile := some (DB.export dbAtVersion2) }
        initialState =
      ({ initialState with activeBackend := .opfs }, some (DB.export dbAtVersion2)) ∧
    saveToStorage { envOpfsEmptyIdbHolds with opfsFile := some (DB.export dbAtVersion2) }
        initialState (DB.export freshDb) =
      ({ initialState with activeBackend := .opfs },
       { { envOpfsEmptyIdbHolds with opfsFile := some (DB.export dbAtVersion2) } with
           opfsFile := some (DB.export freshDb) })) :=
  ⟨backend_resolution_symmetry.1 envNothing stExplicitOpfs rfl,
    backend_resolution_symmetry.2.2.2.1 envNothing stExplicitOpfs freshDb.export rfl,
    backend_resolution_symmetry.2.2.2.2.2.2.1
      { envOpfsEmptyIdbHolds with opfsFile := some (DB.export dbAtVersion2) }
      initialState (DB.export dbAtVersion2) (DB.export freshDb) rfl rfl rfl rfl⟩

end AngularPWASqlite
